import Mathlib

/-!
Shallow embedding of the cross-interpreter data plane of the
`extrainterpreters` package, together with theorems checking the
specification claims against it.

Sources embedded (paths relative to the repository root):
* `src/extrainterpreters/memoryboard.py` — slot structs, `LockableBoardParent`
  (`get_free_block`, `new_item`, `__delitem__`), `ProcessBuffer`;
* `src/extrainterpreters/remote_array.py` — the `RemoteArray` life cycle;
* `src/extrainterpreters/lock.py` — `_CrossInterpreterStructLock`, `IntRLock`,
  `RLock`, `Lock`;
* `src/extrainterpreters/queue.py` — `Queue.put`, `Queue._fetch`,
  `_SimplexPipe` pickling;
* `src/extrainterpreters/simple_interpreter.py` — `SimpleInterpreter.execute`;
* `src/extrainterpreters/resources.py` — the pipe registry.

Machine integers are modelled as `ℕ`: the struct fields of the source are
written through `int.to_bytes`, which raises on overflow instead of
wrapping, so no masking arises on the embedded paths.  Wall-clock instants
(`time.monotonic()`) are modelled as `ℚ` parameters.  Executions inside one
interpreter are sequential, so an atomic compare-and-swap on a byte whose
current value is 0 succeeds.
-/

namespace EI

/-- Lookup in an association list; models reading a Python `dict`. -/
def assocFind {α β : Type} [DecidableEq α] : List (α × β) → α → Option β
  | [], _ => none
  | kv :: rest, k => if kv.1 = k then some kv.2 else assocFind rest k

/-- Remove a key from an association list; models `dict.pop(k, None)` and a
successful `del d[k]`. -/
def assocErase {α β : Type} [DecidableEq α] (l : List (α × β)) (k : α) : List (α × β) :=
  l.filter (fun kv => decide (kv.1 ≠ k))

/-- Insert or overwrite a key; models `d[k] = v`. -/
def assocInsert {α β : Type} [DecidableEq α] (l : List (α × β)) (k : α) (v : β) :
    List (α × β) :=
  (k, v) :: assocErase l k

/-- Replace the element at one index, leaving the list unchanged elsewhere. -/
def modifyIdx {α : Type} (f : α → α) : ℕ → List α → List α
  | _, [] => []
  | 0, a :: rest => f a :: rest
  | n + 1, a :: rest => a :: modifyIdx f n rest

/-! ## LockableBoard slots (`memoryboard.py`)

`memoryboard.State`: `not_initialized = 0`, `building = 1`, `ready = 2`,
`locked = 3`, `garbage = 5`.  A slot is a `BlockLock` struct of
`_size = 1 + 1 + 4 + 1 + 8 + 8 = 23` bytes whose byte 0 is `state` and
byte 1 is `lock`; `data[offset]` / `data[offset + 1]` in the scanning code
therefore read the `state` / `lock` fields of the slot at that offset. -/

def stNotInit : ℕ := 0
def stBuilding : ℕ := 1
def stReady : ℕ := 2
def stLocked : ℕ := 3
def stGarbage : ℕ := 5

/-- Byte size of the `BlockLock` struct. -/
def blockLockSize : ℕ := 23

/-- One `BlockLock` slot of a board (`memoryboard.BlockLock`). -/
structure Slot where
  state : ℕ
  lock : ℕ
  owner : ℕ
  contentType : ℕ
  contentAddress : ℕ
  contentLength : ℕ
deriving Repr, DecidableEq

/-- A freshly zeroed slot (the board buffer is allocated as zero bytes). -/
def Slot.fresh : Slot := ⟨0, 0, 0, 0, 0, 0⟩

/-- The origin-private anchor map `LockableBoardParent.blocks`: slot offset ↦
payload buffer.  The anchored `OwnableBuffer` is abstracted by the
`(address, length)` pair its `map._data_for_remote()` reports. -/
abbrev Anchors : Type := List (ℕ × (ℕ × ℕ))

/-- A `LockableBoardParent`: the slot array plus the anchor map. -/
structure Board where
  slots : List Slot
  blocks : Anchors
deriving Repr, DecidableEq

/-- Error kinds raised by the board operations of `memoryboard.py`. -/
inductive BoardErr
  /-- Python `KeyError` from `del self.blocks[offset]` on a missing key. -/
  | keyErr
  /-- Models `ValueError: Board full`. -/
  | boardFull
  /-- Models `ValueError: Item is locked` from `__delitem__`. -/
  | lockedErr
  /-- Models `ValueError: Invalid State` from `__delitem__`. -/
  | invalidState
deriving Repr, DecidableEq

/-- Models `LockableBoardParent.get_free_block`, scanning from `offset = idx *
blockLockSize`.  A slot whose `state` byte is GARBAGE is reclaimed inline
(`del self.blocks[offset]`, both bytes zeroed) before the free test
`data[offset] == 0 and data[offset+1] == 0`.  The CAS `_atomic_byte_lock`
on the lock byte succeeds sequentially because the byte is 0.  The source
line `block.onwer = id_` is a typo that creates a plain attribute and
writes nothing into the struct, so `owner` is not written here; `tid`
(`threading.current_thread().native_id`) is consequently unused.
Returns the updated slots, the updated anchor map, the claimed offset and
the claimed block view. -/
def getFreeBlockAux (tid : ℕ) (idx : ℕ) (blocks : Anchors) :
    List Slot → Except BoardErr (List Slot × Anchors × ℕ × Slot)
  | [] => .error .boardFull
  | s :: rest =>
    let offset := idx * blockLockSize
    let step : Except BoardErr (Slot × Anchors) :=
      if s.state = stGarbage then
        match assocFind blocks offset with
        | none => .error .keyErr
        | some _ => .ok ({ s with state := 0, lock := 0 }, assocErase blocks offset)
      else .ok (s, blocks)
    match step with
    | .error e => .error e
    | .ok (s1, blocks1) =>
      if s1.state = 0 ∧ s1.lock = 0 then
        let claimed : Slot := { s1 with state := stBuilding, lock := 1 }
        .ok (claimed :: rest, blocks1, offset, claimed)
      else
        match getFreeBlockAux tid (idx + 1) blocks1 rest with
        | .error e => .error e
        | .ok (rest1, blocks2, off, blk) => .ok (s1 :: rest1, blocks2, off, blk)

/-- Models `LockableBoardParent.new_item`.  The payload
`OwnableBuffer(pickle.dumps(data))` is abstracted by the `(addr, len)` its
`_data_for_remote()` reports.  The writes through the returned `control`
view land in the slot at list index `offset // BlockLock._size`. -/
def newItem (b : Board) (tid addr len : ℕ) : Except BoardErr (Board × ℕ) :=
  match getFreeBlockAux tid 0 b.blocks b.slots with
  | .error e => .error e
  | .ok (slots1, blocks1, offset, c) =>
    let c1 : Slot := { c with
      contentAddress := addr, contentLength := len,
      owner := 0, state := stReady, lock := 0 }
    let idx := offset / blockLockSize
    .ok (⟨modifyIdx (fun _ => c1) idx slots1, assocInsert blocks1 offset (addr, len)⟩, idx)

/-- Models `LockableBoardParent.__delitem__` for an in-range index.  (For an index
past the 2048 allocated slots the source reads empty slices, which
`int.from_bytes` maps to 0; that pathological path is not modelled and is
never taken by the theorems below.) -/
def delItem (b : Board) (index : ℕ) : Except BoardErr Board :=
  let offset := blockLockSize * index
  match b.slots.get? index with
  | none => .error .keyErr
  | some c =>
    if c.lock ≠ 0 then .error .lockedErr
    else if ¬ (c.state = stNotInit ∨ c.state = stReady ∨ c.state = stGarbage) then
      .error .invalidState
    else
      .ok ⟨modifyIdx (fun s => { s with state := stNotInit, contentAddress := 0 }) index b.slots,
           assocErase b.blocks offset⟩

/-- Index of the first slot the `get_free_block` scan can claim: either both
scan bytes are zero (`state == NOT_INIT ∧ lock == 0`) or the state byte is
GARBAGE (reclaimed inline to zeroes before the free test). -/
def claimableSlot (s : Slot) : Bool :=
  (s.state = 0 && s.lock = 0) || s.state = stGarbage

/-- First claimable index at or after position `k`. -/
def firstFreeAux : ℕ → List Slot → Option ℕ
  | _, [] => none
  | k, s :: rest => if claimableSlot s then some k else firstFreeAux (k + 1) rest

/-- First index the free-slot scan will claim. -/
def firstFreeIdx (slots : List Slot) : Option ℕ := firstFreeAux 0 slots

/-- Net field assignment `new_item` leaves on the slot it claimed (through
the `control` view returned by `get_free_block`). -/
def postSlot (addr len : ℕ) (s : Slot) : Slot :=
  { s with
    contentAddress := addr, contentLength := len,
    owner := 0, state := stReady, lock := 0 }

/-- Net state of a slot after `new_item` immediately followed by
`__delitem__` on the same index (the rollback path of `Queue.put`). -/
def postDelSlot (len : ℕ) (s : Slot) : Slot :=
  { s with
    contentAddress := 0, contentLength := len,
    owner := 0, state := stNotInit, lock := 0 }

/-! ## `LockableBoard.fetch_item` and `Queue.put` (`queue.py`) -/

/-- Modelled from the spec: `queue.py` and the test suite import a class
`LockableBoard` with a `fetch_item` method and an
`_items_closed_interpreters` counter from `memoryboard.py`, but that class
is absent from the source tree (only the older `LockableBoardParent` /
`LockableBoardChild` pair is present, without the owner-liveness check).
Following §4.6: scan slots; for each READY slot CAS-acquire its lock byte
(sequentially the CAS succeeds exactly when the byte is 0); if the slot's
`owner` is no longer in the live interpreter set, mark the slot GARBAGE,
bump an internal counter and continue the scan; otherwise deserialize the
payload found at `content_address`/`content_length`, set the state to
GARBAGE, release the lock byte and return `(slot_index, value)`; return
`None` when no READY slot could be claimed.  `deser addr len` abstracts
`pickle.loads(_remote_memory(addr, len))`; the returned `ℕ` is the number
of bumps applied to the owner-gone counter. -/
def fetchItemAux {V : Type} (live : List ℕ) (deser : ℕ → ℕ → V) :
    ℕ → List Slot → List Slot × ℕ × Option (ℕ × V)
  | _, [] => ([], 0, none)
  | idx, s :: rest =>
    if s.state = stReady ∧ s.lock = 0 then
      if s.owner ∈ live then
        ({ s with state := stGarbage, lock := 0 } :: rest, 0,
          some (idx, deser s.contentAddress s.contentLength))
      else
        let r := fetchItemAux live deser (idx + 1) rest
        ({ s with state := stGarbage, lock := 1 } :: r.1, r.2.1 + 1, r.2.2)
    else
      let r := fetchItemAux live deser (idx + 1) rest
      (s :: r.1, r.2.1, r.2.2)

/-- Modelled from the spec: `fetch_item` on a whole board. -/
def fetchItem {V : Type} (b : Board) (live : List ℕ) (deser : ℕ → ℕ → V) :
    List Slot × ℕ × Option (ℕ × V) :=
  fetchItemAux live deser 0 b.slots

/-- A slot the scan claims but whose owner has died: READY, lock byte free,
owner not in the live interpreter set. -/
def deadClaimable (live : List ℕ) (s : Slot) : Bool :=
  s.state = stReady && s.lock = 0 && !(decide (s.owner ∈ live))

/-- A slot the scan claims and consumes: READY, lock byte free, live owner. -/
def liveClaimable (live : List ℕ) (s : Slot) : Bool :=
  s.state = stReady && s.lock = 0 && decide (s.owner ∈ live)

/-- Mark a dead-claimable slot GARBAGE with its lock byte kept acquired. -/
def markDead (live : List ℕ) (s : Slot) : Slot :=
  if deadClaimable live s then { s with state := stGarbage, lock := 1 } else s

/-- First index holding a live-claimable slot, counting from `k`. -/
def firstLiveAux (live : List ℕ) : ℕ → List Slot → Option ℕ
  | _, [] => none
  | k, s :: rest => if liveClaimable live s then some k else firstLiveAux live (k + 1) rest

/-- First index `fetch_item` consumes and returns. -/
def firstLiveIdx (live : List ℕ) (slots : List Slot) : Option ℕ :=
  firstLiveAux live 0 slots

/-- Error kinds of the signalling-pipe send step of `Queue.put`
(`self._signal_pipe.select_for_write(...)` then writing the byte 0x01 — the
`except` clause catches `ResourceBusyError` and `TimeoutError`). -/
inductive SigErr
  | resourceBusy
  | timeoutErr
  /-- any exception kind the `except` clause of `Queue.put` does not catch. -/
  | uncaught
deriving Repr, DecidableEq

/-- Models `Queue.put`.  `sig` is the outcome of the signalling step: `none` means
the one-byte signal was written, `some e` that the step raised kind `e`.
The result pairs the board state visible after the call with the exception
that propagates to the caller (`none` = normal return). -/
def queuePut (b : Board) (tid addr len : ℕ) (sig : Option SigErr) :
    Except BoardErr (Board × Option SigErr) :=
  match newItem b tid addr len with
  | .error e => .error e
  | .ok (b1, index) =>
    match sig with
    | none => .ok (b1, none)
    | some e =>
      if e = .resourceBusy ∨ e = .timeoutErr then
        match delItem b1 index with
        | .error de => .error de
        | .ok b2 => .ok (b2, some e)
      else .ok (b1, some e)

/-! ## RemoteArray (`remote_array.py`)

`RemoteState`: `building = 0`, `ready = 1`, `serialized = 2`,
`received = 2`, `garbage = 3`.  `RemoteDataState`: `not_ready = 0`,
`read_only = 1`, `read_write = 2`.  `REMOTE_HEADER_SIZE` is
`1 + 1 + 3 + 3 = 8` bytes (`lock`, `state`, `enter_count`, `exit_count`).
The header lives in shared memory; the remaining fields of a `RemoteArray`
instance are interpreter-local, so a view and the header are modelled
separately. -/

def rsBuilding : ℕ := 0
def rsReady : ℕ := 1
def rsSerialized : ℕ := 2
def rsGarbage : ℕ := 3

def rdNotReady : ℕ := 0
def rdReadOnly : ℕ := 1
def rdReadWrite : ℕ := 2

/-- Size of `RemoteHeader` in bytes. -/
def remoteHeaderSize : ℕ := 8

/-- The shared `RemoteHeader` of a buffer.  The counters are 3-byte fields
written through `int.to_bytes`, which raises rather than wraps at `2^24`,
so `ℕ` is faithful on all paths embedded here. -/
structure RAHeader where
  lock : ℕ
  state : ℕ
  enterCount : ℕ
  exitCount : ℕ
deriving Repr, DecidableEq

/-- Models `_InstMode` of a `RemoteArray` instance. -/
inductive RAMode
  | parent
  | child
  | zombie
deriving Repr, DecidableEq

/-- The interpreter-local part of a `RemoteArray` instance.  `attached`
states whether `_data` currently holds a buffer (is not `None`). -/
structure RAView where
  mode : RAMode
  dataState : ℕ
  attached : Bool
  cursor : ℕ
  timestamp : Option ℚ
  ttl : ℚ
deriving Repr, DecidableEq

/-- Error kinds raised by the `RemoteArray` life-cycle methods (the source
raises `RuntimeError` with distinguishing messages). -/
inductive RAErr
  /-- TTL exceeded when a consumer tries to attach. -/
  | ttlExceeded
  /-- header state-machine precondition violated. -/
  | invalidState
  /-- Models `start()` on a decommissioned (zombie) instance. -/
  | zombieErr
  /-- buffer (meta)data accessed while the local data state is not ready. -/
  | bufferNotReady
deriving Repr, DecidableEq

/-- Freshly constructed origin instance (`RemoteArray.__init__`): the
backing `bytearray` is zero-filled, so every header field starts at 0, and
`header.state = RemoteState.building` is 0 as well; the local data state is
set to `read_write`. -/
def raInitView (ttl : ℚ) : RAView :=
  ⟨.parent, rdReadWrite, true, 0, none, ttl⟩

/-- Header of a freshly constructed buffer. -/
def raInitHeader : RAHeader := ⟨0, 0, 0, 0⟩

/-- Models `RemoteArray._check_ttl`: `True` when the time-to-live has not expired
(no timestamp yet, or `now - timestamp <= ttl`). -/
def checkTTL (v : RAView) (now : ℚ) : Bool :=
  match v.timestamp with
  | none => true
  | some ts => decide (now - ts ≤ v.ttl)

/-- Models `RemoteArray._enter_parent`. -/
def enterParent (v : RAView) (h : RAHeader) : Option RAErr × RAView × RAHeader :=
  if h.state ≠ rsBuilding then (some .invalidState, v, h)
  else (none, { v with dataState := rdReadWrite }, { h with state := rsReady })

/-- Models `RemoteArray._enter_child`.  The method raises in Python; here the error
kind is returned next to the state the instance is left in.  Both TTL
checks (the re-test happens under the header lock) are modelled at the
same instant `now`.  On the TTL re-test failure and on the invalid-state
failure `_data` is reset to `None`; note the source sets
`_data_state = read_write` before the state test, so that assignment
survives an invalid-state failure. -/
def enterChild (v : RAView) (h : RAHeader) (now : ℚ) :
    Option RAErr × RAView × RAHeader :=
  if ¬ checkTTL v now then (some .ttlExceeded, v, h)
  else
    let v1 := { v with attached := true, cursor := 0 }
    if ¬ checkTTL v1 now then (some .ttlExceeded, { v1 with attached := false }, h)
    else
      let v2 := { v1 with dataState := rdReadWrite }
      if h.state = rsSerialized then
        (none, v2, { h with enterCount := h.enterCount + 1 })
      else (some .invalidState, { v2 with attached := false }, h)

/-- Models `RemoteArray.start`. -/
def raStart (v : RAView) (h : RAHeader) (now : ℚ) : Option RAErr × RAView × RAHeader :=
  match v.mode with
  | .zombie => (some .zombieErr, v, h)
  | .child => enterChild v h now
  | .parent => enterParent v h

/-- Models `RemoteArray.__getstate__` (serialization).  Requires the header state
ready/serialized/received; a `ready` buffer advances to `serialized`
(`serialized` and `received` are both the value 2, so the state becomes 2
in every success case), and the serialization timestamp is recorded. -/
def raSerialize (v : RAView) (h : RAHeader) (now : ℚ) :
    Option RAErr × RAView × RAHeader :=
  if h.state = rsReady ∨ h.state = rsSerialized then
    (none, { v with timestamp := some now }, { h with state := rsSerialized })
  else (some .invalidState, v, h)

/-- Models `RemoteArray.__setstate__` on the consumer side: a detached child-mode
view carrying the pickled ttl and timestamp; `_data` is `None` and the
data state `not_ready` until `start()`. -/
def raSetstate (ts ttl : ℚ) : RAView :=
  ⟨.child, rdNotReady, false, 0, some ts, ttl⟩

/-- The child-mode branch of `RemoteArray.close`: a no-op when `_data` is
already `None`, otherwise bump `exit_count` and drop the local view. -/
def closeChild (v : RAView) (h : RAHeader) : RAView × RAHeader :=
  if ¬ v.attached then (v, h)
  else ({ v with dataState := rdNotReady, attached := false },
        { h with exitCount := h.exitCount + 1 })

/-- The origin/zombie branch of `RemoteArray.close`.  Reading `self.header`
raises when the local data state was already marked `not_ready` (the
`header` property guard), which is what a second close runs into.  The
final `Bool` records whether the instance was copied to the limbo registry
(`_copy_to_limbo`). -/
def closeParent (v : RAView) (h : RAHeader) (now : ℚ) :
    Option RAErr × RAView × RAHeader × Bool :=
  if v.dataState = rdNotReady then (some .bufferNotReady, v, h, false)
  else
    let h1 := if h.state = rsBuilding ∨ h.state = rsReady then
      { h with state := rsGarbage } else h
    let ttlCleared := ¬ checkTTL v now
    let h2 := if ttlCleared ∧ h1.exitCount ≥ h1.enterCount then
      { h1 with state := rsGarbage } else h1
    if h2.state = rsGarbage then
      (none, { v with dataState := rdNotReady, attached := false }, h2, false)
    else if v.mode = .zombie then (none, v, h2, false)
    else (none, { v with dataState := rdNotReady, attached := false }, h2, true)

/-- Models `RemoteArray.close`, dispatching on the instance mode. -/
def raClose (v : RAView) (h : RAHeader) (now : ℚ) :
    Option RAErr × RAView × RAHeader × Bool :=
  match v.mode with
  | .child => match closeChild v h with
    | (v1, h1) => (none, v1, h1, false)
  | _ => closeParent v h now

/-- The integer branch of `RemoteArray._convert_index`:
`index += REMOTE_HEADER_SIZE`. -/
def convertIndex (i : ℤ) : ℤ := i + (remoteHeaderSize : ℤ)

/-- Python `bytearray` read at a possibly negative index: a non-negative
index is absolute, a negative one counts from the end, anything else is an
`IndexError` (`none`). -/
def byteAt (data : List ℕ) (i : ℤ) : Option ℕ :=
  if 0 ≤ i ∧ i < (data.length : ℤ) then data.get? i.toNat
  else if -(data.length : ℤ) ≤ i ∧ i < 0 then data.get? ((data.length : ℤ) + i).toNat
  else none

/-- Python `bytearray` single-byte write with the same index semantics. -/
def bytePut (data : List ℕ) (i : ℤ) (val : ℕ) : Option (List ℕ) :=
  if 0 ≤ i ∧ i < (data.length : ℤ) then some (data.set i.toNat val)
  else if -(data.length : ℤ) ≤ i ∧ i < 0 then
    some (data.set ((data.length : ℤ) + i).toNat val)
  else none

/-- Models `RemoteArray.__getitem__` for an integer index: guarded by the local
data state, then `self._data[self._convert_index(index)]`. -/
def raGetItem (v : RAView) (data : List ℕ) (i : ℤ) : Option ℕ :=
  if v.dataState = rdReadOnly ∨ v.dataState = rdReadWrite then
    byteAt data (convertIndex i)
  else none

/-- Models `RemoteArray.__setitem__` for an integer index: guarded by
`read_write`, then writes through the converted index (the lock acquire
around the write succeeds sequentially). -/
def raSetItem (v : RAView) (data : List ℕ) (i : ℤ) (val : ℕ) : Option (List ℕ) :=
  if v.dataState = rdReadWrite then bytePut data (convertIndex i) val
  else none

/-! ## Counter transition system for one shared buffer

Global view of one `RemoteArray` buffer together with all its non-origin
views, for the counter invariant.  Only the `attached` flag of each child
view matters for the counters, so a view is a `Bool`.  The steps follow
the counter- and state-relevant effects of the source operations; steps
that leave counters and flags unchanged (failed starts, detached closes,
reads and writes) need no transition of their own under a
reflexive-transitive closure. -/

/-- Shared header plus the attached-flags of the child views. -/
structure RASys where
  header : RAHeader
  views : List Bool
deriving Repr, DecidableEq

/-- The system right after the origin constructed the buffer. -/
def raInitSys : RASys := ⟨raInitHeader, []⟩

/-- Number of currently attached child views. -/
def countAttached : List Bool → ℕ
  | [] => 0
  | b :: rest => (if b then 1 else 0) + countAttached rest

/-- One operation on the buffer, by the origin or by some child view. -/
inductive RAStep : RASys → RASys → Prop
  /-- a new detached view appears in some interpreter
  (`RemoteArray.__setstate__`). -/
  | spawn (s : RASys) : RAStep s ⟨s.header, s.views ++ [false]⟩
  /-- Models `start()` on the origin (`_enter_parent`): `BUILDING → READY`. -/
  | parentStart (s : RASys) (h0 : s.header.state = rsBuilding) :
      RAStep s ⟨{ s.header with state := rsReady }, s.views⟩
  /-- Models `__getstate__` on the origin: `READY`/`SERIALIZED` becomes
  `SERIALIZED`. -/
  | serialize (s : RASys) (h1 : s.header.state = rsReady ∨ s.header.state = rsSerialized) :
      RAStep s ⟨{ s.header with state := rsSerialized }, s.views⟩
  /-- successful `start()` of child view `i` (`_enter_child`): requires the
  serialized/received header state, attaches the view and bumps
  `enter_count`; re-entering an already attached view is allowed by the
  source and included here. -/
  | childStart (s : RASys) (i : ℕ) (hst : s.header.state = rsSerialized)
      (hi : i < s.views.length) :
      RAStep s ⟨{ s.header with enterCount := s.header.enterCount + 1 },
                s.views.set i true⟩
  /-- Models `close()` of an attached child view `i`: bumps `exit_count` and
  detaches the view. -/
  | childClose (s : RASys) (i : ℕ) (hv : s.views.get? i = some true) :
      RAStep s ⟨{ s.header with exitCount := s.header.exitCount + 1 },
                s.views.set i false⟩
  /-- Models `close()` on the origin or a limbo sweep retry moving the header to
  `GARBAGE`; counters and views untouched. -/
  | parentClose (s : RASys) :
      RAStep s ⟨{ s.header with state := rsGarbage }, s.views⟩

/-- States reachable from the freshly constructed buffer. -/
def RAReachable (s : RASys) : Prop := Relation.ReflTransGen RAStep raInitSys s

/-! ## Cross-interpreter locks (`lock.py`) -/

/-- Models `threading.TIMEOUT_MAX` (platform dependent; only its positivity
matters to the embedded control flow). -/
def timeoutMax : ℚ := 9223372036

/-- Error kinds of the lock layer: `ResourceBusyError` and the built-in
`TimeoutError`. -/
inductive LockErr
  | resourceBusy
  | timeoutErr
deriving Repr, DecidableEq

/-- State of a `_CrossInterpreterStructLock` view: the per-view re-entrance
counter `_entered` plus the shared lock byte it operates on.  `byte = 1`
with `entered = 0` models the byte being held by another view for the
whole duration of a call (static contention). -/
structure SLock where
  entered : ℕ
  byte : ℕ
deriving Repr, DecidableEq

/-- Models `_CrossInterpreterStructLock.acquire(timeout)`.  `none` is Python
`None`.  A held view re-enters without touching the byte.  `None` and `0`
take the single-CAS path raising `ResourceBusyError` on failure; a
negative timeout exhausts the retry loop before a single CAS and raises
`TimeoutError`; a positive timeout CASes until the deadline and raises
`TimeoutError` if the byte never frees (static contention: the byte keeps
its value for the whole window). -/
def slAcquire (l : SLock) (t : Option ℚ) : Except LockErr SLock :=
  if 0 < l.entered then .ok { l with entered := l.entered + 1 }
  else
    match t with
    | none =>
      if l.byte = 0 then .ok { l with byte := 1, entered := 1 }
      else .error .resourceBusy
    | some q =>
      if q = 0 then
        if l.byte = 0 then .ok { l with byte := 1, entered := 1 }
        else .error .resourceBusy
      else if q < 0 then .error .timeoutErr
      else if l.byte = 0 then .ok { l with byte := 1, entered := 1 }
      else .error .timeoutErr

/-- Models `_CrossInterpreterStructLock.release`: a no-op when not entered; the
byte is stored back to 0 only on the outermost release. -/
def slRelease (l : SLock) : SLock :=
  if l.entered = 0 then l
  else if l.entered = 1 then { l with entered := 0, byte := 0 }
  else { l with entered := l.entered - 1 }

/-- Models `IntRLock.locked`: held views report `True`; otherwise probe with a
0-timeout acquire (the probe's acquire/release round-trip restores the
state, so only the boolean is returned). -/
def intRLockLocked (l : SLock) : Bool :=
  if 0 < l.entered then true
  else
    match slAcquire l (some 0) with
    | .error _ => true
    | .ok _ => false

/-- Models `IntRLock.acquire(blocking, timeout)` (inherited unchanged by
`RLock`). -/
def intRLockAcquire (l : SLock) (blocking : Bool) (timeout : ℚ) :
    Except LockErr (SLock × Bool) :=
  if blocking then
    let t := if timeout = -1 ∨ ¬ blocking then timeoutMax else timeout
    match slAcquire l (some t) with
    | .ok l1 => .ok (l1, true)
    | .error e => .error e
  else
    match slAcquire l none with
    | .ok l1 => .ok (l1, true)
    | .error .resourceBusy => .ok (l, false)
    | .error e => .error e

/-- Models `RLock` subclasses `IntRLock` without overriding `acquire`. -/
def rLockAcquire : SLock → Bool → ℚ → Except LockErr (SLock × Bool) :=
  intRLockAcquire

/-- Models `Lock.acquire(blocking, timeout)`.  The retry loop is modelled under
static contention: while the byte is held elsewhere (or the view already
holds it, `Lock` being non-re-entrant) every iteration sets `retry` and
sleeps, so the loop exhausts its window — `timeout = -1` maps to
`TIMEOUT_MAX` first — and ends in `raise ResourceBusyError`, never
`TimeoutError`; a non-positive window skips the loop body and raises
`ResourceBusyError` directly. -/
def lockAcquire (l : SLock) (blocking : Bool) (timeout : ℚ) :
    Except LockErr (SLock × Bool) :=
  if intRLockLocked l ∧ ¬ blocking then .ok (l, false)
  else
    let t := if timeout = -1 then timeoutMax else timeout
    if t ≤ 0 then .error .resourceBusy
    else if intRLockLocked l then .error .resourceBusy
    else
      match slAcquire l (some 0) with
      | .error _ => .error .resourceBusy
      | .ok l1 =>
        if 1 < l1.entered then .error .resourceBusy
        else .ok (l1, true)

/-! ## Simplex pipes and the per-interpreter registry
(`queue.py` / `resources.py`) -/

/-- Interpreter-local attributes of a `_SimplexPipe` relevant to pickling:
the fd pair and the `_new_in_interpreter` marker (`getattr` default
`False` for instances built by `__init__`). -/
structure SPipeObj where
  readerFd : ℕ
  writerFd : ℕ
  newInInterp : Bool
deriving Repr, DecidableEq

/-- Object identity (`is`) is modelled by indices into an object heap. -/
structure PipeWorld where
  /-- Models `PIPE_REGISTRY`: fd pair ↦ live pipe object of this interpreter. -/
  registry : List ((ℕ × ℕ) × ℕ)
  /-- object heap: object id ↦ object state. -/
  objs : List (ℕ × SPipeObj)
  /-- allocator for fresh object ids. -/
  nextId : ℕ
deriving Repr, DecidableEq

/-- Models `_SimplexPipe.__init__`: `register_pipe(os.pipe(), self)` records the
new object under its fd pair; `_new_in_interpreter` is never set. -/
def pipeInit (w : PipeWorld) (rfd wfd : ℕ) : PipeWorld × ℕ :=
  let pid := w.nextId
  (⟨assocInsert w.registry (rfd, wfd) pid,
    assocInsert w.objs pid ⟨rfd, wfd, false⟩,
    w.nextId + 1⟩, pid)

/-- Models `_SimplexPipe._unpickler`: an fd pair already present in
`PIPE_REGISTRY` yields the registered object itself; otherwise
`cls.__new__` builds a bare object with `_new_in_interpreter = True`. -/
def pipeUnpickler (w : PipeWorld) (rfd wfd : ℕ) : PipeWorld × ℕ :=
  match assocFind w.registry (rfd, wfd) with
  | some pid => (w, pid)
  | none =>
    let pid := w.nextId
    (⟨w.registry, assocInsert w.objs pid ⟨rfd, wfd, true⟩, w.nextId + 1⟩, pid)

/-- Models `_SimplexPipe.__setstate__` applied to the object `_unpickler`
returned, with `st` the pickled `__dict__`: a first unpickle in this
interpreter initializes from the state and registers the object; in every
case `_new_in_interpreter` ends up `False`. -/
def pipeSetstate (w : PipeWorld) (pid : ℕ) (st : SPipeObj) : PipeWorld :=
  match assocFind w.objs pid with
  | none => w
  | some obj =>
    if obj.newInInterp then
      ⟨assocInsert w.registry (st.readerFd, st.writerFd) pid,
       assocInsert w.objs pid { st with newInInterp := false },
       w.nextId⟩
    else ⟨w.registry, assocInsert w.objs pid { obj with newInInterp := false }, w.nextId⟩

/-- Models `pickle.loads(pickle.dumps(p))` for a simplex pipe: `__reduce__`
produces `(cls._unpickler, (reader_fd, writer_fd), __dict__)`; unpickling
calls `_unpickler` on the fd pair and then `__setstate__` with the
dictionary on whatever object it returned. -/
def pipeLoadsDumps (w : PipeWorld) (pid : ℕ) : PipeWorld × ℕ :=
  match assocFind w.objs pid with
  | none => (w, pid)
  | some p =>
    match pipeUnpickler w p.readerFd p.writerFd with
    | (w1, pid1) => (pipeSetstate w1 pid1 p, pid1)

/-! ## ProcessBuffer regions and the dispatch of `SimpleInterpreter.execute`
(`memoryboard.py` / `simple_interpreter.py`) -/

/-- The default per-interpreter buffer size `BFSZ`. -/
def bfsz : ℕ := 10000000

/-- Default region table of `ProcessBuffer.__init__`: `command_area` at 0,
`send_data` at 4096, `return_data` at `size // 5 * 4`. -/
def sendDataStart : ℕ := 4096

/-- Offset of the return region in the default range table. -/
def returnDataStart (size : ℕ) : ℕ := size / 5 * 4

/-- Models `range_sizes` entry computed by `_init_range_sizes` for `send_data`:
the distance from its offset to the next region's offset. -/
def sendRegionSize (size : ℕ) : ℕ := returnDataStart size - sendDataStart

/-- Error kind of the dispatch path. -/
inductive ExecErr
  /-- payload larger than the payload buffer (the `PayloadTooLarge`
  kind). -/
  | payloadTooLarge
deriving Repr, DecidableEq

/-- The serialization loop of `SimpleInterpreter.execute`: after
`seek(nranges send_data)` the three objects (`func`, `args`, `kwargs`)
are pickled in turn, `chunks` listing their pickled byte sizes; after each
dump the absolute cursor `self.map.tell()` is compared with
`range_sizes send_data` and the call is cancelled when
`tell() >= range_sizes` (`pickle.dump` itself is totally abstracted: the
`ValueError` escape is not taken).  On success the final cursor is
returned and `_call(...)` is dispatched to the child. -/
def executeSendAux (size : ℕ) : ℕ → List ℕ → Except ExecErr ℕ
  | cursor, [] => .ok cursor
  | cursor, c :: rest =>
    let cursor1 := cursor + c
    if cursor1 ≥ sendRegionSize size then .error .payloadTooLarge
    else executeSendAux size cursor1 rest

/-- The send phase of `SimpleInterpreter.execute` from the start of the
send region. -/
def executeSend (size : ℕ) (chunks : List ℕ) : Except ExecErr ℕ :=
  executeSendAux size sendDataStart chunks

/-! ## Concrete instances used by counterexamples and witnesses -/

/-- A two-slot board whose slot 0 is GARBAGE (payload still anchored) and
whose slot 1 is untouched (`state == NOT_INIT ∧ lock == 0`). -/
def exBoardC2 : Board := ⟨[⟨5, 0, 0, 0, 50, 6⟩, Slot.fresh], [(0, (50, 6))]⟩

/-- A two-slot board whose slot 0 is READY and lock-held (not claimable)
and whose slot 1 is untouched; used to exercise the free-slot scan. -/
def c2WitBoard : Board := ⟨[⟨2, 1, 7, 0, 40, 3⟩, Slot.fresh], []⟩

/-- A one-slot empty board for exercising the `Queue.put` rollback. -/
def c4WitBoard : Board := ⟨[Slot.fresh], []⟩

/-- A board holding one READY item of a dead owner (interpreter 9) followed
by one READY item of a live owner (interpreter 1). -/
def c3WitBoard : Board := ⟨[⟨2, 0, 9, 0, 70, 2⟩, ⟨2, 0, 1, 0, 80, 3⟩], []⟩

/-- A deserialized consumer view: serialized at instant 0 with a TTL of
10. -/
def c5View0 : RAView := raSetstate 0 10

/-- Header of a buffer that was started and serialized on the origin
(state `SERIALIZED`, both counters 0). -/
def c5Header0 : RAHeader := ⟨0, 2, 0, 0⟩

/-- First `start()` of the consumer view, at instant 1 (within TTL). -/
def c5s1 : Option RAErr × RAView × RAHeader := raStart c5View0 c5Header0 1

/-- First `close()` of the same view. -/
def c5s2 : RAView × RAHeader := closeChild c5s1.2.1 c5s1.2.2

/-- Second `start()` of the same view, at instant 2 (within TTL). -/
def c5s3 : Option RAErr × RAView × RAHeader := raStart c5s2.1 c5s2.2 2

/-- Second `close()` of the same view. -/
def c5s4 : RAView × RAHeader := closeChild c5s3.2.1 c5s3.2.2

/-! ## Helper lemmas -/

theorem assocFind_insert_self {α β : Type} [DecidableEq α] (l : List (α × β)) (k : α) (v : β) :
    assocFind (assocInsert l k v) k = some v := by
  simp [assocInsert, assocFind]

theorem assocFind_erase_self {α β : Type} [DecidableEq α] (l : List (α × β)) (k : α) :
    assocFind (assocErase l k) k = none := by
  induction l with
  | nil => rfl
  | cons kv rest ih =>
    by_cases hk : kv.1 = k
    · simpa [assocErase, hk] using ih
    · simpa [assocErase, assocFind, hk] using ih

theorem modifyIdx_length {α : Type} (f : α → α) (i : ℕ) (l : List α) :
    (modifyIdx f i l).length = l.length := by
  induction l generalizing i with
  | nil => cases i <;> rfl
  | cons a rest ih =>
    cases i with
    | zero => rfl
    | succ n => simpa [modifyIdx] using ih n

theorem modifyIdx_get_self {α : Type} (f : α → α) (i : ℕ) (l : List α) :
    (modifyIdx f i l).get? i = (l.get? i).map f := by
  induction l generalizing i with
  | nil => cases i <;> rfl
  | cons a rest ih =>
    cases i with
    | zero => rfl
    | succ n => simpa [modifyIdx] using ih n

theorem modifyIdx_get_ne {α : Type} (f : α → α) (i j : ℕ) (l : List α) (h : j ≠ i) :
    (modifyIdx f i l).get? j = l.get? j := by
  induction l generalizing i j with
  | nil => cases i <;> rfl
  | cons a rest ih =>
    cases i with
    | zero =>
      cases j with
      | zero => exact absurd rfl h
      | succ m => rfl
    | succ n =>
      cases j with
      | zero => rfl
      | succ m => simpa [modifyIdx] using ih n m (fun hc => h (by simpa using hc))

theorem modifyIdx_modifyIdx {α : Type} (f g : α → α) (i : ℕ) (l : List α) :
    modifyIdx f i (modifyIdx g i l) = modifyIdx (fun a => f (g a)) i l := by
  induction l generalizing i with
  | nil => cases i <;> rfl
  | cons a rest ih =>
    cases i with
    | zero => rfl
    | succ n => simpa [modifyIdx] using ih n

theorem get?_isSome_of_lt {α : Type} (l : List α) (n : ℕ) (h : n < l.length) :
    (l.get? n).isSome := by
  induction l generalizing n with
  | nil => simp at h
  | cons a rest ih =>
    cases n with
    | zero => rfl
    | succ m => simpa using ih m (by simpa using h)

/-! ## Claim C10 -/

/-- C10: `RemoteArray` integer indexing does not implement end-relative
negative indices.  For a buffer of payload size `N` (backing bytearray of
`N + 8` bytes, local data state `read_write`) and any `i` with
`-8 ≤ i < 0`, `buf[i]` reads — and `buf[i] = val` writes — the byte at
absolute offset `i + 8`, which lies inside the 8-byte header region and is
distinct from the absolute position `8 + (N + i)` of the payload byte
`N + i`; no index error is raised, so the header fields are reachable and
corruptible through the public byte-indexing interface. -/
theorem c10_negative_index_reads_header (v : RAView) (data : List ℕ) (N : ℕ) (i : ℤ)
    (val : ℕ) (hv : v.dataState = rdReadWrite) (hlen : data.length = N + 8)
    (hN : 8 ≤ N) (h1 : -8 ≤ i) (h2 : i < 0) :
    raGetItem v data i = data.get? (i + 8).toNat ∧
    raSetItem v data i val = some (data.set (i + 8).toNat val) ∧
    (i + 8).toNat < remoteHeaderSize ∧
    (i + 8).toNat ≠ ((8 : ℤ) + ((N : ℤ) + i)).toNat ∧
    (raGetItem v data i).isSome := by
  have hconv : convertIndex i = i + 8 := rfl
  have hge : (0 : ℤ) ≤ i + 8 := by omega
  have hlt : i + 8 < (data.length : ℤ) := by
    rw [hlen]; push_cast; omega
  have hget : raGetItem v data i = data.get? (i + 8).toNat := by
    simp only [raGetItem, hv, rdReadOnly, rdReadWrite, byteAt, hconv]
    simp [hge, hlt]
  have hset : raSetItem v data i val = some (data.set (i + 8).toNat val) := by
    simp only [raSetItem, hv, rdReadWrite, bytePut, hconv]
    simp [hge, hlt]
  refine ⟨hget, hset, by simp [remoteHeaderSize]; omega, by omega, ?_⟩
  rw [hget]
  exact get?_isSome_of_lt _ _ (by rw [hlen]; omega)

/-- C10 witness: a payload of 8 bytes, index `-1`, concrete write. -/
theorem c10_witness :
    (raInitView 1).dataState = rdReadWrite ∧
    (List.replicate 16 0).length = 8 + 8 ∧
    raGetItem (raInitView 1) (List.replicate 16 0) (-1) =
      (List.replicate 16 0).get? ((-1 : ℤ) + 8).toNat := by
  refine ⟨rfl, rfl, ?_⟩
  exact (c10_negative_index_reads_header (raInitView 1) (List.replicate 16 0) 8 (-1) 7
    rfl rfl (by norm_num) (by norm_num) (by norm_num)).1

/-! ## Claim C1 -/

/-- C1: `start()` on a deserialized non-origin view when more time than the
TTL has elapsed since the serialization timestamp fails with the
`TTLExceeded` kind and attaches nothing: the view and the shared header are
returned unchanged (in particular `enter_count` is not incremented and the
view stays detached with data state `not_ready`), and every subsequent
byte read or write through the view fails. -/
theorem c1_ttl_expired_start_fails (ts ttl now : ℚ) (h : RAHeader)
    (hexp : ttl < now - ts) :
    raStart (raSetstate ts ttl) h now = (some .ttlExceeded, raSetstate ts ttl, h) ∧
    (raSetstate ts ttl).attached = false ∧
    (raSetstate ts ttl).dataState = rdNotReady ∧
    (∀ data i, raGetItem (raSetstate ts ttl) data i = none) ∧
    (∀ data i val, raSetItem (raSetstate ts ttl) data i val = none) := by
  have hlt : ¬ (now - ts ≤ ttl) := by linarith
  refine ⟨?_, rfl, rfl, ?_, ?_⟩
  · simp [raStart, raSetstate, enterChild, checkTTL, hlt]
  · intro data i
    simp [raGetItem, raSetstate, rdReadOnly, rdReadWrite, rdNotReady]
  · intro data i val
    simp [raSetItem, raSetstate, rdReadWrite, rdNotReady]

/-- C1 witness: serialized at instant 0 with TTL 1, started at instant 2. -/
theorem c1_witness :
    (1 : ℚ) < 2 - 0 ∧
    raStart (raSetstate 0 1) ⟨0, 2, 0, 0⟩ 2 = (some .ttlExceeded, raSetstate 0 1, ⟨0, 2, 0, 0⟩) :=
  ⟨by norm_num, (c1_ttl_expired_start_fails 0 1 2 ⟨0, 2, 0, 0⟩ (by norm_num)).1⟩

/-! ## Claim C6 -/

/-- C6 counterexample: on a fresh origin buffer that was never serialized,
the first `close()` completes (the header reaches GARBAGE and the local
view is dropped), but a second `close()` is not a no-op: it fails with the
buffer-not-ready kind (the `header` property guard fires because the local
data state was marked `not_ready`). -/
theorem c6_counterexample :
    (closeParent (raInitView 10) raInitHeader 0).1 = none ∧
    (closeParent (raInitView 10) raInitHeader 0).2.2.1.state = rsGarbage ∧
    (closeParent (closeParent (raInitView 10) raInitHeader 0).2.1
        (closeParent (raInitView 10) raInitHeader 0).2.2.1 0).1 =
      some RAErr.bufferNotReady := by
  decide

/-- C6 amended: a second `close()` is a no-op on the non-origin (child)
side only; on the origin a second close after a completed close raises the
buffer-not-ready kind — while still leaving the header state, the
enter/exit counters and the limbo registry unchanged (the failed call
performs no mutation). -/
theorem c6_second_close (v : RAView) (h : RAHeader) (now : ℚ) :
    closeChild (closeChild v h).1 (closeChild v h).2 = closeChild v h ∧
    (v.dataState = rdNotReady →
      closeParent v h now = (some .bufferNotReady, v, h, false)) := by
  constructor
  · by_cases hv : v.attached
    · simp [closeChild, hv]
    · simp [closeChild, hv]
  · intro hds
    simp [closeParent, hds]

/-- C6 witness: the origin view left by the first close of the
counterexample configuration, closed again at instant 1. -/
theorem c6_witness :
    ((closeParent (raInitView 10) raInitHeader 0).2.1).dataState = rdNotReady ∧
    closeParent (closeParent (raInitView 10) raInitHeader 0).2.1 ⟨0, 3, 0, 0⟩ 1 =
      (some .bufferNotReady, (closeParent (raInitView 10) raInitHeader 0).2.1,
        ⟨0, 3, 0, 0⟩, false) :=
  ⟨by decide,
    (c6_second_close (closeParent (raInitView 10) raInitHeader 0).2.1 ⟨0, 3, 0, 0⟩ 1).2
      (by decide)⟩

/-! ## Claim C7 -/

/-- C7: unpickling a simplex pipe in an interpreter whose pipe registry
already holds a live pipe object for the same `(read_fd, write_fd)` pair
returns that very same object; in particular for a pipe built by
`__init__` in the current interpreter (which registers itself),
`pickle.loads(pickle.dumps(p))` is `p`. -/
theorem c7_pipe_unpickle_identity (w : PipeWorld) (pid : ℕ) (p : SPipeObj)
    (hobj : assocFind w.objs pid = some p)
    (hreg : assocFind w.registry (p.readerFd, p.writerFd) = some pid) :
    (pipeLoadsDumps w pid).2 = pid ∧
    (∀ (w0 : PipeWorld) (rfd wfd : ℕ),
      (pipeLoadsDumps (pipeInit w0 rfd wfd).1 (pipeInit w0 rfd wfd).2).2 =
        (pipeInit w0 rfd wfd).2) := by
  constructor
  · simp [pipeLoadsDumps, hobj, pipeUnpickler, hreg]
  · intro w0 rfd wfd
    simp [pipeLoadsDumps, pipeInit, pipeUnpickler,
      assocFind_insert_self]

/-- C7 witness: a fresh world, one pipe built by `__init__` on fds (3, 4),
then pickled and unpickled. -/
theorem c7_witness :
    assocFind (pipeInit ⟨[], [], 0⟩ 3 4).1.objs 0 = some ⟨3, 4, false⟩ ∧
    assocFind (pipeInit ⟨[], [], 0⟩ 3 4).1.registry (3, 4) = some 0 ∧
    (pipeLoadsDumps (pipeInit ⟨[], [], 0⟩ 3 4).1 0).2 = 0 :=
  ⟨by decide, by decide,
    (c7_pipe_unpickle_identity (pipeInit ⟨[], [], 0⟩ 3 4).1 0 ⟨3, 4, false⟩
      (by decide) (by decide)).1⟩

/-! ## Claim C8 -/

/-- C8 counterexample: a contended `Lock` (byte held elsewhere, view not
re-entered) acquired with `blocking=True` and the positive timeout 5
raises the `ResourceBusy` kind, not the `Timeout` kind the claim
requires. -/
theorem c8_counterexample :
    lockAcquire ⟨0, 1⟩ true 5 = .error .resourceBusy ∧
    LockErr.resourceBusy ≠ LockErr.timeoutErr := by
  constructor
  · have h5 : ¬ ((5 : ℚ) = -1) := by norm_num
    have h5b : ¬ ((5 : ℚ) ≤ 0) := by norm_num
    simp [lockAcquire, intRLockLocked, slAcquire, h5, h5b]
  · decide

/-- C8 amended: for a lock whose shared byte is held elsewhere for the whole
call (`entered = 0`, `byte = 1`) — `IntRLock.acquire` (inherited unchanged
by `RLock`) returns `False` without raising when `blocking=False`, raises
`ResourceBusy` on a failed acquire with timeout 0 and `Timeout` on a failed
acquire with a positive timeout, and maps `timeout = -1` to the maximal
wait `TIMEOUT_MAX` (failing with `Timeout` under permanent contention);
`Lock.acquire`, however, ends every failed blocking acquire — timeout 0,
positive, or -1 — with the `ResourceBusy` kind, because its retry loop
terminates in `raise ResourceBusyError`. -/
theorem c8_acquire_error_kinds (l : SLock) (q : ℚ) (hl : l.entered = 0)
    (hb : l.byte = 1) (hq : 0 < q) :
    (∀ t, intRLockAcquire l false t = .ok (l, false)) ∧
    intRLockAcquire l true 0 = .error .resourceBusy ∧
    intRLockAcquire l true q = .error .timeoutErr ∧
    intRLockAcquire l true (-1) = .error .timeoutErr ∧
    rLockAcquire = intRLockAcquire ∧
    (∀ t, lockAcquire l false t = .ok (l, false)) ∧
    lockAcquire l true 0 = .error .resourceBusy ∧
    lockAcquire l true q = .error .resourceBusy ∧
    lockAcquire l true (-1) = .error .resourceBusy := by
  have hq0 : ¬ (q = 0) := by linarith
  have hqneg : ¬ (q < 0) := by linarith
  have hqm1 : ¬ (q = -1) := by intro hc; rw [hc] at hq; linarith
  have htm0 : ¬ (timeoutMax = 0) := by norm_num [timeoutMax]
  have htmneg : ¬ (timeoutMax < 0) := by norm_num [timeoutMax]
  have hlocked : intRLockLocked l = true := by
    simp [intRLockLocked, slAcquire, hl, hb]
  refine ⟨?_, ?_, ?_, ?_, rfl, ?_, ?_, ?_, ?_⟩
  · intro t
    simp [intRLockAcquire, slAcquire, hl, hb]
  · simp [intRLockAcquire, slAcquire, hl, hb]
  · simp [intRLockAcquire, slAcquire, hl, hb, hq0, hqneg, hqm1]
  · simp [intRLockAcquire, slAcquire, hl, hb, htm0, htmneg]
  · intro t
    simp [lockAcquire, hlocked]
  · simp [lockAcquire, hlocked]
  · have hqle : ¬ (q ≤ 0) := by linarith
    simp [lockAcquire, hlocked, hqm1, hqle]
  · have htmle : ¬ (timeoutMax ≤ 0) := by norm_num [timeoutMax]
    simp [lockAcquire, hlocked, htmle]

/-- C8 witness: the contended lock state `(entered 0, byte 1)` and the
positive timeout 5 applied to the amended theorem. -/
theorem c8_witness :
    (⟨0, 1⟩ : SLock).entered = 0 ∧ (⟨0, 1⟩ : SLock).byte = 1 ∧ (0 : ℚ) < 5 ∧
    intRLockAcquire ⟨0, 1⟩ true 5 = .error .timeoutErr :=
  ⟨rfl, rfl, by norm_num,
    (c8_acquire_error_kinds ⟨0, 1⟩ 5 rfl rfl (by norm_num)).2.2.1⟩

/-! ## Claim C9 -/

theorem executeSendAux_ok (size : ℕ) (chunks : List ℕ) (cursor : ℕ)
    (h : cursor + chunks.sum < sendRegionSize size) :
    executeSendAux size cursor chunks = .ok (cursor + chunks.sum) := by
  induction chunks generalizing cursor with
  | nil => simp [executeSendAux]
  | cons c rest ih =>
    have hsum : cursor + (c :: rest).sum = (cursor + c) + rest.sum := by
      simp [List.sum_cons]; ring
    have hlt : ¬ (cursor + c ≥ sendRegionSize size) := by
      simp [List.sum_cons] at h; omega
    simp only [executeSendAux, hlt, if_false]
    rw [hsum] at h ⊢
    exact ih (cursor + c) h

theorem executeSendAux_err (size : ℕ) (chunks : List ℕ) (cursor : ℕ)
    (hne : chunks ≠ []) (h : sendRegionSize size ≤ cursor + chunks.sum) :
    executeSendAux size cursor chunks = .error .payloadTooLarge := by
  induction chunks generalizing cursor with
  | nil => exact absurd rfl hne
  | cons c rest ih =>
    by_cases hc : cursor + c ≥ sendRegionSize size
    · simp only [executeSendAux, hc, if_true]
    · cases rest with
      | nil => simp [List.sum_cons] at h; omega
      | cons d tail =>
        have h2 : sendRegionSize size ≤ (cursor + c) + (d :: tail).sum := by
          simp [List.sum_cons] at h ⊢; omega
        simp only [executeSendAux, hc, if_false]
        exact ih (cursor + c) (by simp) h2

/-- C9 counterexample: with the default 10 MB buffer the send region is
`10000000 // 5 * 4 - 4096 = 7995904` bytes, yet a pickled
`(func, args, kwargs)` payload of exactly that many bytes is rejected with
the `PayloadTooLarge` kind instead of fitting: the overflow test compares
the absolute cursor (which starts at 4096, after the command area) against
the region size with `>=`. -/
theorem c9_counterexample :
    7995902 + 1 + 1 = sendRegionSize bfsz ∧
    executeSend bfsz [7995902, 1, 1] = .error .payloadTooLarge := by
  refine ⟨by decide, ?_⟩
  have := executeSendAux_err bfsz [7995902, 1, 1] sendDataStart (by simp) (by decide)
  simpa [executeSend] using this

/-- C9 amended: a pickled `(func, args, kwargs)` payload is dispatched to
the child exactly when the absolute final cursor `4096 + (f + a + k)` stays
strictly below the send-region size, i.e. when the payload totals at most
`send_region_size - 4097` bytes; any larger payload — including one of
exactly `send_region_size` bytes — fails with the `PayloadTooLarge` kind
before `_call` is dispatched, leaving the call cancelled. -/
theorem c9_payload_boundary (f a k : ℕ) :
    (sendDataStart + (f + a + k) < sendRegionSize bfsz →
      executeSend bfsz [f, a, k] = .ok (sendDataStart + (f + a + k))) ∧
    (sendRegionSize bfsz ≤ sendDataStart + (f + a + k) →
      executeSend bfsz [f, a, k] = .error .payloadTooLarge) := by
  have hs : ([f, a, k] : List ℕ).sum = f + a + k := by
    simp [List.sum_cons]
    ring
  constructor
  · intro h
    have := executeSendAux_ok bfsz [f, a, k] sendDataStart (by rw [hs]; exact h)
    rw [hs] at this
    simpa [executeSend] using this
  · intro h
    have := executeSendAux_err bfsz [f, a, k] sendDataStart (by simp) (by rw [hs]; exact h)
    simpa [executeSend] using this

/-- C9 witness: the largest payload that fits, `7991806 + 1 + 0 =
send_region_size - 4097` bytes, is dispatched. -/
theorem c9_witness :
    sendDataStart + (7991806 + 1 + 0) < sendRegionSize bfsz ∧
    executeSend bfsz [7991806, 1, 0] = .ok (sendDataStart + (7991806 + 1 + 0)) :=
  ⟨by decide, (c9_payload_boundary 7991806 1 0).1 (by decide)⟩

/-! ## Board scan lemmas (claims C2 and C4) -/

theorem assocErase_insert_self {α β : Type} [DecidableEq α] (l : List (α × β))
    (k : α) (v : β) : assocErase (assocInsert l k v) k = assocErase l k := by
  simp [assocInsert, assocErase, List.filter_filter]

theorem assocErase_idem {α β : Type} [DecidableEq α] (l : List (α × β)) (k : α) :
    assocErase (assocErase l k) k = assocErase l k := by
  simp [assocErase, List.filter_filter]

theorem modifyIdx_congr_at {α : Type} (f g : α → α) (i : ℕ) (l : List α) (c : α)
    (hget : l.get? i = some c) (hfg : f c = g c) : modifyIdx f i l = modifyIdx g i l := by
  induction l generalizing i with
  | nil => cases i <;> rfl
  | cons a rest ih =>
    cases i with
    | zero =>
      have : a = c := by simpa using hget
      subst this
      simp [modifyIdx, hfg]
    | succ n =>
      simp only [modifyIdx]
      exact congrArg _ (ih n (by simpa using hget))

theorem firstFreeAux_some (slots : List Slot) (k i : ℕ)
    (h : firstFreeAux k slots = some i) :
    ∃ j c, i = k + j ∧ slots.get? j = some c ∧ claimableSlot c = true ∧
      ∀ m, m < j → ∀ cm, slots.get? m = some cm → claimableSlot cm = false := by
  induction slots generalizing k with
  | nil => simp [firstFreeAux] at h
  | cons s rest ih =>
    by_cases hs : claimableSlot s
    · have hik : i = k := by simpa [firstFreeAux, hs] using h.symm
      exact ⟨0, s, by omega, rfl, hs, fun m hm => absurd hm (by omega)⟩
    · have h1 : firstFreeAux (k + 1) rest = some i := by
        simpa [firstFreeAux, hs] using h
      obtain ⟨j, c, hij, hj, hc, hmin⟩ := ih (k + 1) h1
      refine ⟨j + 1, c, by omega, by simpa using hj, hc, ?_⟩
      intro m hm cm hcm
      cases m with
      | zero =>
        have : s = cm := by simpa using hcm
        subst this
        simpa using hs
      | succ m0 => exact hmin m0 (by omega) cm (by simpa using hcm)

theorem getFreeBlockAux_spec (tid : ℕ) (blocks : Anchors) (slots : List Slot)
    (k j : ℕ) (c : Slot)
    (hj : slots.get? j = some c) (hc : claimableSlot c = true)
    (hmin : ∀ m, m < j → ∀ cm, slots.get? m = some cm → claimableSlot cm = false)
    (hanch : c.state = stGarbage →
      (assocFind blocks ((k + j) * blockLockSize)).isSome = true) :
    getFreeBlockAux tid k blocks slots =
      .ok (modifyIdx (fun s => { s with state := stBuilding, lock := 1 }) j slots,
           (if c.state = stGarbage then assocErase blocks ((k + j) * blockLockSize)
            else blocks),
           (k + j) * blockLockSize,
           { c with state := stBuilding, lock := 1 }) := by
  induction slots generalizing k j with
  | nil => simp at hj
  | cons s rest ih =>
    cases j with
    | zero =>
      have hcs : s = c := by simpa using hj
      subst hcs
      by_cases hg : s.state = stGarbage
      · obtain ⟨v, hv⟩ := Option.isSome_iff_exists.mp (by simpa using hanch hg)
        simp only [Nat.add_zero] at hv ⊢
        simp [getFreeBlockAux, hg, hv, modifyIdx, stBuilding]
      · have hg5 : ¬ (s.state = 5) := by simpa [stGarbage] using hg
        have hfree : s.state = 0 ∧ s.lock = 0 := by
          have := hc
          simp [claimableSlot, stGarbage, hg5] at this
          exact this
        simp only [Nat.add_zero]
        simp [getFreeBlockAux, hg, hg5, hfree.1, hfree.2, modifyIdx, stGarbage]
    | succ j0 =>
      have hskip : claimableSlot s = false := hmin 0 (Nat.succ_pos j0) s rfl
      have hsg : ¬ (s.state = stGarbage) := by
        intro hgg
        simp [claimableSlot, hgg, stGarbage] at hskip
      have hsfree : ¬ (s.state = 0 ∧ s.lock = 0) := by
        intro hff
        simp [claimableSlot, hff.1, hff.2, hsg, stGarbage] at hskip
      have harith : k + 1 + j0 = k + (j0 + 1) := by omega
      have hrec := ih (k + 1) j0 (by simpa using hj)
        (fun m hm cm hcm => hmin (m + 1) (by omega) cm (by simpa using hcm))
        (by rw [harith]; exact hanch)
      simp only [getFreeBlockAux, hsg, if_false, hsfree, hrec, harith]
      simp [modifyIdx]

/-- Anchors: inserting at a key right after erasing that key equals plain
insertion (both start by erasing the key). -/
theorem assocInsert_erase_self {α β : Type} [DecidableEq α] (l : List (α × β))
    (k : α) (v : β) : assocInsert (assocErase l k) k v = assocInsert l k v := by
  simp [assocInsert, assocErase_idem]

/-- Combined postcondition of `new_item` driven by the scan
characterization; shared by the theorems for claims C2 and C4.  (The
anchor map needs no garbage case split: when the claimed slot was GARBAGE
its stale anchor is dropped and the key is immediately re-bound, which
coincides with plain insertion.) -/
theorem newItem_spec (b : Board) (tid addr len i : ℕ)
    (hfirst : firstFreeIdx b.slots = some i)
    (hanch : ∀ cg, b.slots.get? i = some cg → cg.state = stGarbage →
      (assocFind b.blocks (i * blockLockSize)).isSome = true) :
    newItem b tid addr len =
      .ok (⟨modifyIdx (postSlot addr len) i b.slots,
            assocInsert b.blocks (i * blockLockSize) (addr, len)⟩, i) := by
  obtain ⟨j, c, hij, hj, hc, hmin⟩ := firstFreeAux_some b.slots 0 i hfirst
  have hji : j = i := by omega
  subst hji
  have hgfb := getFreeBlockAux_spec tid b.blocks b.slots 0 j c hj hc hmin
    (by simpa using hanch c hj)
  simp only [Nat.zero_add] at hgfb
  have hdiv : j * blockLockSize / blockLockSize = j :=
    Nat.mul_div_cancel j (by norm_num [blockLockSize])
  have hcongr := modifyIdx_congr_at
    (fun _ => (⟨stReady, 0, 0, c.contentType, addr, len⟩ : Slot))
    (fun s => { s with
      contentAddress := addr, contentLength := len,
      owner := 0, state := stReady, lock := 0 })
    j b.slots c hj rfl
  by_cases hg : c.state = stGarbage
  · simp only [newItem, hgfb, hdiv, modifyIdx_modifyIdx, if_pos hg,
      assocInsert_erase_self]
    simp only [hcongr]
    rfl
  · simp only [newItem, hgfb, hdiv, modifyIdx_modifyIdx, if_neg hg]
    simp only [hcongr]
    rfl

/-! ## Claim C2 -/

/-- C2 counterexample: on a board whose slot 0 is GARBAGE (payload still
anchored) and whose slot 1 is the lowest-indexed slot with
`state == NOT_INIT ∧ lock == 0`, `new_item` reclaims and returns slot 0 —
not slot 1, the lowest-indexed NOT_INIT slot the claim requires. -/
theorem c2_counterexample :
    exBoardC2.slots.get? 1 = some Slot.fresh ∧
    Slot.fresh.state = stNotInit ∧ Slot.fresh.lock = 0 ∧
    (exBoardC2.slots.get? 0).map Slot.state = some stGarbage ∧
    newItem exBoardC2 1 100 4 =
      .ok (⟨[⟨2, 0, 0, 0, 100, 4⟩, Slot.fresh], [(0, (100, 4))]⟩, 0) ∧
    (0 : ℕ) ≠ 1 :=
  ⟨rfl, rfl, rfl, rfl, rfl, by decide⟩

/-- C2 amended: `new_item` claims the lowest-indexed slot that is either
free (`state == NOT_INIT ∧ lock == 0`) or GARBAGE — garbage slots being
reclaimed inline during the scan (provided their stale anchor entry is
present, else the scan dies with a `KeyError`).  On return that slot has
`state = READY`, its lock byte released to 0, `owner` written (with the
constant 0), and `content_address`/`content_length` equal to the address
and length of the auxiliary payload buffer, which is retained in the
origin-side anchor map under the slot's offset; all other slots are
untouched and the returned index is the claimed slot's index. -/
theorem c2_new_item_claims_first_free (b : Board) (tid addr len i : ℕ)
    (hfirst : firstFreeIdx b.slots = some i)
    (hanch : ∀ cg, b.slots.get? i = some cg → cg.state = stGarbage →
      (assocFind b.blocks (i * blockLockSize)).isSome = true) :
    newItem b tid addr len =
      .ok (⟨modifyIdx (postSlot addr len) i b.slots,
            assocInsert b.blocks (i * blockLockSize) (addr, len)⟩, i) ∧
    (modifyIdx (postSlot addr len) i b.slots).get? i =
      (b.slots.get? i).map (postSlot addr len) ∧
    assocFind (assocInsert b.blocks (i * blockLockSize) (addr, len))
      (i * blockLockSize) = some (addr, len) ∧
    (∀ m, m ≠ i → (modifyIdx (postSlot addr len) i b.slots).get? m = b.slots.get? m) :=
  ⟨newItem_spec b tid addr len i hfirst hanch,
   modifyIdx_get_self _ i b.slots,
   assocFind_insert_self _ _ _,
   fun m hm => modifyIdx_get_ne _ i m b.slots hm⟩

/-- C2 witness: a board whose slot 0 is unavailable (READY and lock-held)
and whose slot 1 is free; the claimed slot is slot 1. -/
theorem c2_witness :
    firstFreeIdx c2WitBoard.slots = some 1 ∧
    newItem c2WitBoard 1 200 5 =
      .ok (⟨[⟨2, 1, 7, 0, 40, 3⟩, ⟨2, 0, 0, 0, 200, 5⟩], [(23, (200, 5))]⟩, 1) := by
  refine ⟨by decide, ?_⟩
  have h := (c2_new_item_claims_first_free c2WitBoard 1 200 5 1 (by decide) ?_).1
  · exact h.trans (by rfl)
  · intro cg hcg hst
    simp [c2WitBoard, Slot.fresh] at hcg
    subst hcg
    simp [Slot.fresh, stGarbage] at hst

/-! ## Claim C4 -/

/-- C4: when the signalling step of `Queue.put` fails with the
`ResourceBusy` or `Timeout` kind after `board.new_item` posted the item at
slot `i`, the freshly allocated slot is rolled back by `del board[index]`:
it returns to `state = NOT_INIT` with `content_address` cleared to 0 and
its payload anchor dropped from the anchor map, every other slot is
untouched, and the original error propagates to the caller. -/
theorem c4_put_signal_failure_rolls_back (b : Board) (tid addr len i : ℕ) (e : SigErr)
    (hfirst : firstFreeIdx b.slots = some i)
    (hanch : ∀ cg, b.slots.get? i = some cg → cg.state = stGarbage →
      (assocFind b.blocks (i * blockLockSize)).isSome = true)
    (he : e = .resourceBusy ∨ e = .timeoutErr) :
    queuePut b tid addr len (some e) =
      .ok (⟨modifyIdx (postDelSlot len) i b.slots,
            assocErase b.blocks (blockLockSize * i)⟩, some e) ∧
    (modifyIdx (postDelSlot len) i b.slots).get? i =
      (b.slots.get? i).map (postDelSlot len) ∧
    assocFind (assocErase b.blocks (blockLockSize * i)) (blockLockSize * i) = none ∧
    (∀ m, m ≠ i → (modifyIdx (postDelSlot len) i b.slots).get? m = b.slots.get? m) := by
  have hnew := newItem_spec b tid addr len i hfirst hanch
  obtain ⟨j, c, hij, hj, hc, hmin⟩ := firstFreeAux_some b.slots 0 i hfirst
  have hji : j = i := by omega
  subst hji
  have hb1get : (modifyIdx (postSlot addr len) j b.slots).get? j
      = some (postSlot addr len c) := by
    rw [modifyIdx_get_self, hj]
    rfl
  have hblocks : assocErase (assocInsert b.blocks (j * blockLockSize) (addr, len))
      (blockLockSize * j) = assocErase b.blocks (blockLockSize * j) := by
    rw [Nat.mul_comm blockLockSize j]
    exact assocErase_insert_self b.blocks (j * blockLockSize) (addr, len)
  have hroll : modifyIdx (fun s => { s with state := stNotInit, contentAddress := 0 }) j
      (modifyIdx (postSlot addr len) j b.slots) = modifyIdx (postDelSlot len) j b.slots := by
    rw [modifyIdx_modifyIdx]
    rfl
  have hdel : delItem ⟨modifyIdx (postSlot addr len) j b.slots,
      assocInsert b.blocks (j * blockLockSize) (addr, len)⟩ j =
      .ok ⟨modifyIdx (postDelSlot len) j b.slots,
           assocErase b.blocks (blockLockSize * j)⟩ := by
    simp only [delItem, hb1get]
    rw [if_neg (by simp [postSlot]), if_neg (by simp [postSlot, stReady, stNotInit, stGarbage])]
    rw [hroll, hblocks]
  refine ⟨?_, modifyIdx_get_self _ j b.slots, assocFind_erase_self _ _, 
    fun m hm => modifyIdx_get_ne _ j m b.slots hm⟩
  have hcatch : (e = SigErr.resourceBusy ∨ e = SigErr.timeoutErr) := he
  simp only [queuePut, hnew, if_pos hcatch, hdel]

/-- C4 witness: posting on a fresh one-slot board and failing the signal
with the `ResourceBusy` kind rolls the slot back and re-raises. -/
theorem c4_witness :
    queuePut c4WitBoard 1 100 4 (some .resourceBusy) =
      .ok (⟨[⟨0, 0, 0, 0, 0, 4⟩], []⟩, some .resourceBusy) := by
  have h := (c4_put_signal_failure_rolls_back c4WitBoard 1 100 4 0 .resourceBusy
    (by decide) ?_ (Or.inl rfl)).1
  · exact h.trans (by rfl)
  · intro cg hcg hst
    simp [c4WitBoard, Slot.fresh] at hcg
    subst hcg
    simp [Slot.fresh, stGarbage] at hst

/-! ## Claim C3 -/

theorem firstLiveAux_some (live : List ℕ) (slots : List Slot) (k i : ℕ)
    (h : firstLiveAux live k slots = some i) :
    ∃ j c, i = k + j ∧ slots.get? j = some c ∧ liveClaimable live c = true ∧
      ∀ m, m < j → ∀ cm, slots.get? m = some cm → liveClaimable live cm = false := by
  induction slots generalizing k with
  | nil => simp [firstLiveAux] at h
  | cons s rest ih =>
    by_cases hs : liveClaimable live s
    · have hik : i = k := by simpa [firstLiveAux, hs] using h.symm
      exact ⟨0, s, by omega, rfl, hs, fun m hm => absurd hm (by omega)⟩
    · have h1 : firstLiveAux live (k + 1) rest = some i := by
        simpa [firstLiveAux, hs] using h
      obtain ⟨j, c, hij, hj, hc, hmin⟩ := ih (k + 1) h1
      refine ⟨j + 1, c, by omega, by simpa using hj, hc, ?_⟩
      intro m hm cm hcm
      cases m with
      | zero =>
        have : s = cm := by simpa using hcm
        subst this
        simpa using hs
      | succ m0 => exact hmin m0 (by omega) cm (by simpa using hcm)

theorem fetchItemAux_none {V : Type} (live : List ℕ) (deser : ℕ → ℕ → V)
    (slots : List Slot) (k : ℕ) (h : firstLiveAux live k slots = none) :
    fetchItemAux live deser k slots =
      (slots.map (markDead live), List.countP (deadClaimable live) slots, none) := by
  induction slots generalizing k with
  | nil => simp [fetchItemAux]
  | cons s rest ih =>
    have hs : liveClaimable live s = false := by
      by_cases hls : liveClaimable live s
      · simp [firstLiveAux, hls] at h
      · simpa using hls
    have hrest : firstLiveAux live (k + 1) rest = none := by
      simpa [firstLiveAux, hs] using h
    have hrec := ih (k + 1) hrest
    by_cases hchk : s.state = stReady ∧ s.lock = 0
    · have hdead : ¬ (s.owner ∈ live) := by
        intro hmem
        simp [liveClaimable, hchk.1, hchk.2, hmem, stReady] at hs
      have hdc : deadClaimable live s = true := by
        simp [deadClaimable, hchk.1, hchk.2, hdead, stReady]
      simp only [fetchItemAux, if_pos hchk, if_neg hdead, hrec]
      simp [List.countP_cons, markDead, hdc, Nat.add_comm]
    · have hdc : deadClaimable live s = false := by
        simp only [deadClaimable, stReady]
        by_cases h1 : s.state = 2
        · by_cases h2 : s.lock = 0
          · exact absurd ⟨by simpa [stReady] using h1, h2⟩ hchk
          · simp [h1, h2]
        · simp [h1]
      simp only [fetchItemAux, if_neg hchk, hrec]
      simp [List.countP_cons, markDead, hdc]

theorem fetchItemAux_some {V : Type} (live : List ℕ) (deser : ℕ → ℕ → V)
    (slots : List Slot) (k j : ℕ) (c : Slot)
    (hj : slots.get? j = some c) (hc : liveClaimable live c = true)
    (hmin : ∀ m, m < j → ∀ cm, slots.get? m = some cm → liveClaimable live cm = false) :
    fetchItemAux live deser k slots =
      ((slots.take j).map (markDead live) ++
          ({ c with state := stGarbage, lock := 0 } :: slots.drop (j + 1)),
       List.countP (deadClaimable live) (slots.take j),
       some (k + j, deser c.contentAddress c.contentLength)) := by
  induction slots generalizing k j with
  | nil => simp at hj
  | cons s rest ih =>
    cases j with
    | zero =>
      have hcs : s = c := by simpa using hj
      subst hcs
      have h3 : s.state = stReady ∧ s.lock = 0 ∧ s.owner ∈ live := by
        have := hc
        simp [liveClaimable, stReady] at this
        tauto
      simp [fetchItemAux, h3.1, h3.2.1, h3.2.2, stReady]
    | succ j0 =>
      have hskip : liveClaimable live s = false := hmin 0 (Nat.succ_pos j0) s rfl
      have hrec := ih (k + 1) j0 (by simpa using hj)
        (fun m hm cm hcm => hmin (m + 1) (by omega) cm (by simpa using hcm))
      by_cases hchk : s.state = stReady ∧ s.lock = 0
      · have hdead : ¬ (s.owner ∈ live) := by
          intro hmem
          simp [liveClaimable, hchk.1, hchk.2, hmem, stReady] at hskip
        have hdc : deadClaimable live s = true := by
          simp [deadClaimable, hchk.1, hchk.2, hdead, stReady]
        have harith : k + (j0 + 1) = k + 1 + j0 := by omega
        simp only [fetchItemAux, if_pos hchk, if_neg hdead, hrec, Prod.mk.injEq]
        refine ⟨?_, ?_, ?_⟩
        · simp [List.take_succ_cons, List.drop_succ_cons, markDead, hdc]
        · simp [List.take_succ_cons, List.countP_cons, hdc]
        · simp [harith]
      · have hdc : deadClaimable live s = false := by
          simp only [deadClaimable, stReady]
          by_cases h1 : s.state = 2
          · by_cases h2 : s.lock = 0
            · exact absurd ⟨by simpa [stReady] using h1, h2⟩ hchk
            · simp [h1, h2]
          · simp [h1]
        have harith : k + (j0 + 1) = k + 1 + j0 := by omega
        simp only [fetchItemAux, if_neg hchk, hrec, Prod.mk.injEq]
        refine ⟨?_, ?_, ?_⟩
        · simp [List.take_succ_cons, List.drop_succ_cons, markDead, hdc]
        · simp [List.take_succ_cons, List.countP_cons, hdc]
        · simp [harith]

/-- C3 (modelled from the spec; the `LockableBoard.fetch_item` that
`queue.py` calls is absent from the source tree): `fetch_item` claims and
consumes at most one READY slot — the first CAS-claimable one with a live
owner, index `i` — which it marks GARBAGE with the lock byte released and
returns together with the value deserialized from
`content_address`/`content_length`.  Every CAS-claimed READY slot met
before it whose owner is no longer in the live interpreter set is set to
GARBAGE (lock kept) with one owner-gone counter bump each, and the scan
continues; slots it cannot claim are untouched.  When no READY slot with a
live owner can be claimed the result is `None` (dead-owner READY slots
met during that scan are still garbage-collected and counted). -/
theorem c3_fetch_item_spec {V : Type} (b : Board) (live : List ℕ) (deser : ℕ → ℕ → V) :
    (firstLiveIdx live b.slots = none →
      fetchItem b live deser =
        (b.slots.map (markDead live), List.countP (deadClaimable live) b.slots, none)) ∧
    (∀ i c, firstLiveIdx live b.slots = some i → b.slots.get? i = some c →
      fetchItem b live deser =
        ((b.slots.take i).map (markDead live) ++
            ({ c with state := stGarbage, lock := 0 } :: b.slots.drop (i + 1)),
         List.countP (deadClaimable live) (b.slots.take i),
         some (i, deser c.contentAddress c.contentLength))) := by
  constructor
  · intro hnone
    exact fetchItemAux_none live deser b.slots 0 hnone
  · intro i c hsome hget
    obtain ⟨j, c0, hij, hj, hc0, hmin⟩ := firstLiveAux_some live b.slots 0 i hsome
    have hji : j = i := by omega
    subst hji
    have hcc : c0 = c := by
      rw [hj] at hget
      simpa using hget
    subst hcc
    simpa using fetchItemAux_some live deser b.slots 0 j c0 hj hc0 hmin

/-- C3 witness: a dead-owner READY slot before a live-owner READY slot; the
live one is consumed, the dead one garbage-marked with one counter bump. -/
theorem c3_witness :
    fetchItem c3WitBoard [0, 1] (fun a l => (a, l)) =
      ([⟨5, 1, 9, 0, 70, 2⟩, ⟨5, 0, 1, 0, 80, 3⟩], 1, some (1, (80, 3))) := by
  have h := (c3_fetch_item_spec c3WitBoard [0, 1] (fun a l => (a, l))).2 1
    ⟨2, 0, 1, 0, 80, 3⟩ (by decide) rfl
  exact h.trans (by rfl)

/-! ## Claim C5 -/

theorem countAttached_append_false (l : List Bool) :
    countAttached (l ++ [false]) = countAttached l := by
  induction l with
  | nil => rfl
  | cons b rest ih => simp [countAttached, ih]

theorem countAttached_set_true_le (l : List Bool) (i : ℕ) :
    countAttached (l.set i true) ≤ countAttached l + 1 := by
  induction l generalizing i with
  | nil => simp [countAttached]
  | cons b rest ih =>
    cases i with
    | zero =>
      cases b <;> simp [List.set, countAttached] <;> omega
    | succ n =>
      simp only [List.set, countAttached]
      have := ih n
      omega

theorem countAttached_set_false (l : List Bool) (i : ℕ) (h : l.get? i = some true) :
    countAttached (l.set i false) + 1 = countAttached l := by
  induction l generalizing i with
  | nil => simp at h
  | cons b rest ih =>
    cases i with
    | zero =>
      have hb : b = true := by simpa using h
      subst hb
      simp [List.set, countAttached] <;> omega
    | succ n =>
      simp only [List.set, countAttached]
      have := ih n (by simpa using h)
      omega

theorem raStep_inv (s t : RASys) (hst : RAStep s t)
    (h : s.header.exitCount + countAttached s.views ≤ s.header.enterCount) :
    t.header.exitCount + countAttached t.views ≤ t.header.enterCount := by
  cases hst with
  | spawn => simpa [countAttached_append_false] using h
  | parentStart h0 => simpa using h
  | serialize h1 => simpa using h
  | childStart i hstt hi =>
    have hle := countAttached_set_true_le s.views i
    show s.header.exitCount + countAttached (s.views.set i true) ≤ s.header.enterCount + 1
    omega
  | childClose i hv =>
    have heq := countAttached_set_false s.views i hv
    show s.header.exitCount + 1 + countAttached (s.views.set i false) ≤ s.header.enterCount
    omega
  | parentClose => simpa using h

/-- C5 amended: both counters start at 0 at construction and every
operation of the life cycle (view spawning, origin start, serialization,
child start, child close, origin close) preserves
`enter_count ≥ exit_count`: in every reachable state of the buffer system
the inequality holds.  A non-origin view increments `exit_count` at most
once per successful `start()` — each exit increment detaches the view and
a further increment needs a fresh attach, which first increments
`enter_count` (strengthened invariant:
`exit_count + attached views ≤ enter_count`). -/
theorem c5_enter_ge_exit (s : RASys) (h : RAReachable s) :
    raInitSys.header.enterCount = 0 ∧ raInitSys.header.exitCount = 0 ∧
    s.header.exitCount ≤ s.header.enterCount := by
  have hinv : s.header.exitCount + countAttached s.views ≤ s.header.enterCount := by
    induction h with
    | refl => simp [raInitSys, raInitHeader, countAttached]
    | tail hab hbc ih => exact raStep_inv _ _ hbc (by omega)
  exact ⟨rfl, rfl, by omega⟩

/-- C5 witness: the freshly built buffer system is reachable and satisfies
the inequality. -/
theorem c5_witness : raInitSys.header.exitCount ≤ raInitSys.header.enterCount :=
  (c5_enter_ge_exit raInitSys Relation.ReflTransGen.refl).2.2

/-- C5 counterexample: one single non-origin view started and closed twice
in a row (each start within the TTL, the buffer serialized throughout)
ends with `exit_count = 2`: the view incremented `exit_count` twice,
falsifying the claim's assertion that a non-origin view increments
`exit_count` at most once.  (`enter_count = 2` as well, so the inequality
itself survives.) -/
theorem c5_counterexample :
    c5s1.1 = none ∧ c5s3.1 = none ∧
    c5s4.2.enterCount = 2 ∧ c5s4.2.exitCount = 2 := by
  norm_num [c5s1, c5s2, c5s3, c5s4, c5View0, c5Header0, raStart, raSetstate,
    enterChild, closeChild, checkTTL, rsSerialized, rdReadWrite, rdNotReady]

end EI
